import Mathlib

/-!
Verification of the relevance-selection / concurrent-gather / grounded-answer
pipeline of `search_marvin.py` and the maintenance helpers of
`final_marvin_update.py`, as a shallow embedding in Lean.

Network calls are modelled by explicit environments: the completion API is a
function from (system message, user message) to a response carrying content and
token counts; the task-store reads are functions returning `Option` (`none`
models a raised exception, caught by the caller where the Python code catches
it).  `json.loads` is modelled as an abstract parameter
`parse : String → Option Json` (`none` models `JSONDecodeError`).  The
completion-order nondeterminism of the thread pool is modelled by quantifying
over the arrival permutation of the fetched results.
-/

namespace Marvin


/-- Python `str.strip()`: drop leading and trailing whitespace. -/
def pyStrip (s : String) : String :=
  ⟨((s.data.dropWhile Char.isWhitespace).reverse.dropWhile Char.isWhitespace).reverse⟩

/-- Python `str.lower()`. -/
def pyLower (s : String) : String := ⟨s.data.map Char.toLower⟩

/-- Python `s.startswith(pre)`. -/
def strStartsWith (s pre : String) : Bool := List.isPrefixOf pre.data s.data

/-- Python `s.endswith(suf)`. -/
def strEndsWith (s suf : String) : Bool := List.isPrefixOf suf.data.reverse s.data.reverse

/-- Helper for Python `in` on strings: does `pat` occur as a contiguous
sublist of `l`? -/
def containsSub (pat : List Char) : List Char → Bool
  | [] => pat.isEmpty
  | c :: rest => List.isPrefixOf pat (c :: rest) || containsSub pat rest

/-- Python `pat in s` (substring occurrence). -/
def strContains (s pat : String) : Bool := containsSub pat.data s.data

/-- Accumulator pass behind `pyWords`: split a character list on whitespace
runs, discarding empty fields. -/
def wordsAux : List Char → List Char → List String
  | [], acc => if acc.isEmpty then [] else [⟨acc.reverse⟩]
  | c :: rest, acc =>
    if c.isWhitespace then
      if acc.isEmpty then wordsAux rest []
      else ⟨acc.reverse⟩ :: wordsAux rest []
    else wordsAux rest (c :: acc)

/-- Python `s.split()`: whitespace-delimited words. -/
def pyWords (s : String) : List String := wordsAux s.data []

/-- `len(s.split())`. -/
def pyWordCount (s : String) : Nat := (pyWords s).length

/-- JSON values, the possible results of `json.loads`. -/
inductive Json where
  | null : Json
  | bool (b : Bool) : Json
  | num (n : Int) : Json
  | str (s : String) : Json
  | arr (elems : List Json) : Json
  | obj (fields : List (String × Json)) : Json

/-- `isinstance(x, list)`. -/
def Json.isArr : Json → Bool
  | .arr _ => true
  | _ => false

/-- Python hashability of a JSON value: lists and dicts are unhashable, so
using one as a dict-membership probe raises `TypeError`. -/
def Json.hashable : Json → Bool
  | .arr _ => false
  | .obj _ => false
  | _ => true

/-- A project/category record from `/api/categories`.  The store always
supplies `_id` and `title`; `note` and `done` are optional fields read with
`.get`. -/
structure Project where
  _id : String
  title : String
  note : Option String := none
  done : Bool := false
deriving DecidableEq

/-- A child record from `/api/children` (tasks and other kinds, discriminated
by the `db` field); all fields are read with `.get` in the Python code. -/
structure Child where
  db : Option String := none
  done : Option Bool := none
  title : Option String := none
  note : Option String := none
deriving DecidableEq

/-- A document record from `/api/doc`. -/
structure Doc where
  note : Option String := none
deriving DecidableEq

/-- The per-project aggregate built by `_fetch_one_project`. -/
structure ContentBlock where
  id : String
  title : String
  note : String
  tasks : List Child
deriving DecidableEq

/-- The `usage_log` global: prompt tokens, completion tokens, call count. -/
structure Usage where
  prompt_tokens : Nat
  completion_tokens : Nat
  calls : Nat
deriving DecidableEq

/-- One chat-completion response: the message content plus token usage. -/
structure ChatResponse where
  content : String
  prompt_tokens : Nat
  completion_tokens : Nat

/-- The completion API: a function from (system message, user message) to a
response.  Temperature is a constant at each call site and is omitted. -/
structure LLM where
  chat : String → String → ChatResponse

/-- `track_usage`: add a response usage to the running counters. -/
def track_usage (u : Usage) (r : ChatResponse) : Usage :=
  { prompt_tokens := u.prompt_tokens + r.prompt_tokens
    completion_tokens := u.completion_tokens + r.completion_tokens
    calls := u.calls + 1 }

/-! ## Phase 1: `identify_relevant_projects` -/

/-- The system prompt of `identify_relevant_projects`. -/
def identify_sys_prompt : String :=
  "You are a search assistant for a personal task manager. " ++
  "Given a user query and a list of projects, identify which projects " ++
  "are most likely to contain the answer. " ++
  "Return ONLY a JSON array of the relevant project IDs (strings), " ++
  "ordered by relevance, maximum 5 items. " ++
  "If no project seems relevant, return an empty array []. " ++
  "Return valid JSON only — no explanation, no markdown."

/-- The user prompt of `identify_relevant_projects`: query plus the roster as
`ID: ... | Title: ...` lines. -/
def identify_user_prompt (query : String) (projects : List Project) : String :=
  let roster := String.intercalate "\n"
    (projects.map fun p => "ID: " ++ p._id ++ " | Title: " ++ p.title)
  "Query: " ++ query ++ "\n\nProjects:\n" ++ roster

/-- The stripped model response `raw` of `identify_relevant_projects`. -/
def identify_raw (env : LLM) (query : String) (projects : List Project) : String :=
  pyStrip (env.chat identify_sys_prompt (identify_user_prompt query projects)).content

/-- The parsed id list `ids`: the parsed array when the response parses to a
JSON list, `[]` when it parses to anything else or fails to parse. -/
def identify_ids (parse : String → Option Json) (raw : String) : List Json :=
  match parse raw with
  | some (Json.arr xs) => xs
  | some _ => []
  | none => []

/-- Python dict lookup in `id_to_proj = {p["_id"]: p for p in projects}`:
on duplicate keys the last insertion wins. -/
def dictGet (projects : List Project) (s : String) : Option Project :=
  projects.reverse.find? (fun p => p._id == s)

/-- The list comprehension `[id_to_proj[i] for i in ids if i in id_to_proj]`.
A membership probe with an unhashable value (a JSON list or dict among `ids`)
raises `TypeError`, modelled by `Except.error ()`. -/
def selectProjects (projects : List Project) : List Json → Except Unit (List Project)
  | [] => .ok []
  | i :: rest =>
    if i.hashable then
      let tail := selectProjects projects rest
      match i with
      | .str s =>
        match dictGet projects s with
        | some p => tail.map (fun l => p :: l)
        | none => tail
      | _ => tail
    else
      .error ()

/-- `identify_relevant_projects`: one completion call, usage tracking, JSON
parsing with fail-open-to-empty, then roster filtering. -/
def identify_relevant_projects (env : LLM) (parse : String → Option Json)
    (query : String) (projects : List Project) (u : Usage) :
    Except Unit (List Project) × Usage :=
  let response := env.chat identify_sys_prompt (identify_user_prompt query projects)
  let u2 := track_usage u response
  (selectProjects projects (identify_ids parse (identify_raw env query projects)), u2)

/-! ## Phase 2: `_fetch_one_project` and `gather_project_content` -/

/-- The task-store read environment used by the gather phase: `getDoc` models
`get_project_doc`, `getChildren` models `get_project_children`; `none` models
a raised exception (network/HTTP error), caught by `_fetch_one_project`. -/
structure FetchEnv where
  getDoc : String → Option Doc
  getChildren : String → Option (List Child)

/-- `_fetch_one_project`: build one content block; on a failed doc fetch fall
back to the note already on the project record, on a failed children fetch
fall back to an empty task list.  Children are filtered to task records
(`db == "Tasks"`). -/
def _fetch_one_project (fenv : FetchEnv) (proj : Project) : ContentBlock :=
  let note := match fenv.getDoc proj._id with
    | some doc => pyStrip (doc.note.getD "")
    | none => pyStrip (proj.note.getD "")
  let tasks := match fenv.getChildren proj._id with
    | some children => children.filter (fun c => c.db == some "Tasks")
    | none => []
  { id := proj._id, title := proj.title, note := note, tasks := tasks }

/-- The dict `order = {p["_id"]: i for i, p in enumerate(projects)}`: maps an
id to the index of its LAST occurrence (later insertions overwrite). -/
def lastIdx (projects : List Project) (id : String) : Option Nat :=
  match projects with
  | [] => none
  | p :: rest =>
    match lastIdx rest id with
    | some i => some (i + 1)
    | none => if p._id == id then some 0 else none

/-- The sort key `order[r["id"]]` (the id of every fetched result is an id of
`projects`, so the default is never reached on the inputs `gather` receives). -/
def gatherKey (projects : List Project) (b : ContentBlock) : Nat :=
  (lastIdx projects b.id).getD 0

/-- `gather_project_content`: the thread pool delivers the per-project results
in an arbitrary completion order, modelled by the extra argument `completed`
(a permutation of `projects`); `as_completed` yields the fetched block of each
completed project in that order, and the final `sorted(..., key=lambda r:
order[r["id"]])` (a stable sort, like Python's) restores the ranking order. -/
def gather_project_content (fenv : FetchEnv) (completed : List Project)
    (projects : List Project) : List ContentBlock :=
  let results := completed.map (_fetch_one_project fenv)
  results.mergeSort
    (fun a b => decide (gatherKey projects a ≤ gatherKey projects b))

/-! ## Phase 3: `generate_answer` -/

/-- One task line of the grounding context: status marker, title, and the
stripped task note when non-empty. -/
def renderTask (t : Child) : String :=
  let status := if t.done == some true then "DONE" else "active"
  let task_note := pyStrip (t.note.getD "")
  let line := "  - [" ++ status ++ "] " ++ t.title.getD ""
  if task_note == "" then line else line ++ "\n    Note: " ++ task_note

/-- One project section of the grounding context. -/
def renderBlock (b : ContentBlock) : String :=
  let header := "== PROJECT: " ++ b.title ++ " =="
  let notes := if b.note == "" then "Notes: (none)" else "Notes:\n" ++ b.note
  let tasks :=
    if b.tasks.isEmpty then "Tasks: (none)"
    else "Tasks:\n" ++ String.intercalate "\n" (b.tasks.map renderTask)
  String.intercalate "\n" [header, notes, tasks]

/-- The system prompt of `generate_answer`. -/
def answer_sys_prompt : String :=
  "You are a personal assistant with access to a user\x27s task manager data. " ++
  "Answer the user\x27s question directly and concisely using ONLY the information " ++
  "provided below. " ++
  "If the answer is clearly present, state it plainly. " ++
  "If the information is not found in the provided data, say so explicitly — " ++
  "do not guess or hallucinate. " ++
  "Format your answer for readability in a terminal or log output."

/-- `generate_answer`: short-circuit on an empty block list, otherwise one
grounded completion call. -/
def generate_answer (env : LLM) (query : String)
    (content_blocks : List ContentBlock) (u : Usage) : String × Usage :=
  if content_blocks.isEmpty then
    ("No relevant projects were found for your query.", u)
  else
    let full_context := String.intercalate "\n\n" (content_blocks.map renderBlock)
    let response := env.chat answer_sys_prompt
      ("Question: " ++ query ++ "\n\nTask manager data:\n" ++ full_context)
    (pyStrip response.content, track_usage u response)

/-! ## Maintenance pass (`final_marvin_update.py`) -/

/-- A field setter `{key, val}` sent to `/api/doc/update`; values occurring in
the program are strings and millisecond timestamps. -/
inductive SVal where
  | str (s : String) : SVal
  | num (n : Nat) : SVal
deriving DecidableEq

structure Setter where
  key : String
  val : SVal
deriving DecidableEq

/-- The body posted to `/api/doc/update`. -/
structure WriteRequest where
  itemId : String
  setters : List Setter
deriving DecidableEq

/-- `update_doc`: append an `updatedAt` setter stamped with the current time
in milliseconds unless the caller already set that key, then post the request
(the returned value is the request body that is posted). -/
def update_doc (now_ms : Nat) (item_id : String) (setters : List Setter) :
    WriteRequest :=
  let keys_being_set := setters.map Setter.key
  let setters2 :=
    if keys_being_set.contains "updatedAt" then setters
    else setters ++ [{ key := "updatedAt", val := SVal.num now_ms }]
  { itemId := item_id, setters := setters2 }

/-- The system prompt of `tidy_note`. -/
def tidy_sys_prompt : String :=
  "You are a professional note-taker. Tidy up the following note by:\n" ++
  "1. Fixing spelling, grammar or punctuation mistakes in the WRITTEN TEXT.\n" ++
  "2. Adding relevant emojis at the start of key text lines or sections.\n" ++
  "3. Improving formatting — use bullet points where appropriate, clear line breaks.\n" ++
  "4. Keeping ALL original meaning and content — do NOT remove or invent information.\n" ++
  "5. Do NOT change or remove any image links, markdown image tags, or URLs.\n" ++
  "6. If there is a markdown image like ![...](...), keep that line exactly as it is.\n\n" ++
  "Return ONLY the tidied note. No explanation, no preamble."

/-- The user prompt of `tidy_note`. -/
def tidy_user_prompt (context_title note : String) : String :=
  "Context (task/project title): " ++ context_title ++ "\n\n" ++
  "Tidy the text in this note, but do not change any images or links:\n\n" ++ note

/-- The pure-media-reference guard of `tidy_note`: a single markdown image
line, a bare image-suffix path, or a short screenshot stub. -/
def tidy_skip (stripped : String) : Bool :=
  let lower := pyLower stripped
  (strStartsWith stripped "![" && strContains stripped "](" && strEndsWith stripped ")")
    || strEndsWith stripped ".png" || strEndsWith stripped ".jpg"
    || strEndsWith stripped ".jpeg" || strEndsWith stripped ".gif"
    || strEndsWith stripped ".webp"
    || (strContains lower "screenshot" && pyWordCount lower ≤ 5)

/-- `tidy_note`: blank notes and pure media references pass through untouched
with no model call; anything else goes through one completion call. -/
def tidy_note (env : LLM) (note context_title : String) (u : Usage) :
    String × Usage :=
  if note == "" || pyStrip note == "" then (note, u)
  else if tidy_skip (pyStrip note) then (note, u)
  else
    let response := env.chat tidy_sys_prompt (tidy_user_prompt context_title note)
    (pyStrip response.content, track_usage u response)

/-- The system prompt of `assign_project`. -/
def assign_sys_prompt : String :=
  "You are a task organiser. Given a task title and a list of projects, " ++
  "return the single best matching project ID. " ++
  "If unsure, reply with exactly: UNSURE. " ++
  "Return ONLY the project ID or UNSURE — nothing else."

/-- The user prompt of `assign_project`: task title plus the roster as
`- ID: ... | Name: ...` lines. -/
def assign_user_prompt (task_title : String) (projects : List Project) : String :=
  let project_list := String.intercalate "\n"
    (projects.map fun p => "- ID: " ++ p._id ++ " | Name: " ++ p.title)
  "Task: " ++ task_title ++ "\n\nProjects:\n" ++ project_list

/-- The stripped model answer of `assign_project`. -/
def assign_answer (env : LLM) (task_title : String) (projects : List Project) :
    String :=
  pyStrip (env.chat assign_sys_prompt (assign_user_prompt task_title projects)).content

/-- `assign_project`: an exact `UNSURE` answer or an answer matching no roster
id falls back to the admin project; a matching answer returns that project. -/
def assign_project (env : LLM) (task_title : String) (projects : List Project)
    (admin_id : String) (u : Usage) : (String × String) × Usage :=
  let response := env.chat assign_sys_prompt (assign_user_prompt task_title projects)
  let u2 := track_usage u response
  let answer := assign_answer env task_title projects
  if answer == "UNSURE" then
    let admin := projects.find? (fun p => p._id == admin_id)
    ((admin_id, (admin.map Project.title).getD "Admin"), u2)
  else
    match projects.find? (fun p => p._id == answer) with
    | some matched => ((matched._id, matched.title), u2)
    | none =>
      let admin := projects.find? (fun p => p._id == admin_id)
      ((admin_id, (admin.map Project.title).getD "Admin"), u2)

/-! ## Helper lemmas -/

/-! ## Claim theorems -/

instance {ε α : Type} [DecidableEq ε] [DecidableEq α] : DecidableEq (Except ε α) :=
  fun a b =>
    match a, b with
    | .ok x, .ok y =>
      if h : x = y then isTrue (by rw [h]) else isFalse (by simp [h])
    | .error x, .error y =>
      if h : x = y then isTrue (by rw [h]) else isFalse (by simp [h])
    | .ok _, .error _ => isFalse (by simp)
    | .error _, .ok _ => isFalse (by simp)

def envC4 : LLM := ⟨fun _ _ => ⟨"[\"a\"]", 2, 3⟩⟩

def projC4 : Project := { _id := "a", title := "Acme" }

def parseC4 : String → Option Json := fun s =>
  if s == "[\"a\"]" then some (Json.arr [Json.str "a"]) else none

def usage0 : Usage := ⟨0, 0, 0⟩

def exceptLen : Except Unit (List Project) → Nat
  | .ok l => l.length
  | .error _ => 0

def envC5 : LLM := ⟨fun _ _ => ⟨"[\"a\", \"a\", \"a\", \"a\", \"a\", \"a\"]", 2, 3⟩⟩

def projC5 : Project := { _id := "a", title := "Acme" }

def parseC5 : String → Option Json := fun s =>
  if s == "[\"a\", \"a\", \"a\", \"a\", \"a\", \"a\"]" then
    some (Json.arr [Json.str "a", Json.str "a", Json.str "a",
                    Json.str "a", Json.str "a", Json.str "a"])
  else none

def envC5w : LLM := ⟨fun _ _ => ⟨"[\"a\"]", 2, 3⟩⟩

def projC5w : Project := { _id := "z", title := "Zed" }

def parseC5w : String → Option Json := fun s =>
  if s == "[\"a\"]" then some (Json.arr [Json.str "a"]) else none

def envC2 : LLM := ⟨fun _ _ => ⟨"I think projects 1 and 2 are relevant", 2, 3⟩⟩

def parseC2 : String → Option Json := fun _ => none

def setterC8 : Setter := { key := "note", val := SVal.str "hello" }

def fenvC3 : FetchEnv := ⟨fun _ => none, fun _ => none⟩

def projC3 : Project := { _id := "p9", title := "Trip", note := some " pack bags " }

def envC7 : LLM := ⟨fun _ _ => ⟨"SOME MODEL OUTPUT", 7, 8⟩⟩

def usageC7 : Usage := ⟨10, 20, 3⟩

def envC9 : LLM := ⟨fun _ _ => ⟨"UNSURE", 4, 1⟩⟩

def projC9 : Project := { _id := "adm", title := "Admin" }

def fenvC1w : FetchEnv :=
  ⟨fun id => if id == "x" then some { note := some " fetched note " } else none,
   fun _ => some [{ db := some "Tasks", title := some "t1" }]⟩

def pXw : Project := { _id := "x", title := "Xray" }

def pYw : Project := { _id := "y", title := "Yankee" }

def fenvC1 : FetchEnv := ⟨fun _ => none, fun _ => none⟩

def pC1a : Project := { _id := "a", title := "Acme" }

def pC1b : Project := { _id := "b", title := "Groceries" }

def envC10 : LLM := ⟨fun _ _ => ⟨"[\"a\", \"a\"]", 2, 3⟩⟩

def parseC10 : String → Option Json := fun s =>
  if s == "[\"a\", \"a\"]" then some (Json.arr [Json.str "a", Json.str "a"])
  else none

def projC10 : Project := { _id := "a", title := "Acme", note := some "milk" }

def fenvC10 : FetchEnv :=
  ⟨fun _ => some { note := some "milk" }, fun _ => some []⟩

def blockC10 : ContentBlock := { id := "a", title := "Acme", note := "milk", tasks := [] }

/-! ## Theorems -/

theorem dictGet_mem {projects : List Project} {s : String} {p : Project}
    (h : dictGet projects s = some p) : p ∈ projects ∧ p._id = s := by
  unfold dictGet at h
  refine ⟨List.mem_reverse.mp (List.mem_of_find?_eq_some h), ?_⟩
  have := List.find?_some h
  simpa using this

theorem selectProjects_ok_mem {projects : List Project} :
    ∀ {ids : List Json} {res : List Project},
      selectProjects projects ids = Except.ok res → ∀ b ∈ res, b ∈ projects := by
  intro ids
  induction ids with
  | nil => intro res h b hb; simp [selectProjects] at h; subst h; simp at hb
  | cons i rest ih =>
    intro res h b hb
    unfold selectProjects at h
    by_cases hh : i.hashable
    · simp only [hh, if_true] at h
      match i with
      | .str s =>
        simp only at h
        cases hd : dictGet projects s with
        | some p =>
          rw [hd] at h
          cases ht : selectProjects projects rest with
          | ok l =>
            rw [ht] at h
            simp [Except.map] at h
            subst h
            rcases List.mem_cons.mp hb with hb | hb
            · exact hb ▸ (dictGet_mem hd).1
            · exact ih ht b hb
          | error e => rw [ht] at h; simp [Except.map] at h
        | none => rw [hd] at h; exact ih h b hb
      | .null => exact ih h b hb
      | .bool c => exact ih h b hb
      | .num n => exact ih h b hb
      | .arr xs => simp [Json.hashable] at hh
      | .obj fs => simp [Json.hashable] at hh
    · simp only [hh] at h
      simp at h

theorem selectProjects_ok_length {projects : List Project} :
    ∀ {ids : List Json} {res : List Project},
      selectProjects projects ids = Except.ok res → res.length ≤ ids.length := by
  intro ids
  induction ids with
  | nil => intro res h; simp [selectProjects] at h; subst h; simp
  | cons i rest ih =>
    intro res h
    unfold selectProjects at h
    by_cases hh : i.hashable
    · simp only [hh, if_true] at h
      match i with
      | .str s =>
        simp only at h
        cases hd : dictGet projects s with
        | some p =>
          rw [hd] at h
          cases ht : selectProjects projects rest with
          | ok l =>
            rw [ht] at h
            simp [Except.map] at h
            subst h
            simpa [List.length_cons] using Nat.succ_le_succ (ih ht)
          | error e => rw [ht] at h; simp [Except.map] at h
        | none =>
          rw [hd] at h
          exact Nat.le_succ_of_le (ih h)
      | .null => exact Nat.le_succ_of_le (ih h)
      | .bool c => exact Nat.le_succ_of_le (ih h)
      | .num n => exact Nat.le_succ_of_le (ih h)
      | .arr xs => simp [Json.hashable] at hh
      | .obj fs => simp [Json.hashable] at hh
    · simp only [hh] at h
      simp at h

/-- C2: whenever the model response fails to parse as JSON, or parses to a
JSON value that is not a list, `identify_relevant_projects` returns the empty
project list (and no exception escapes: the result is `Except.ok`). -/
theorem identify_malformed_empty (env : LLM) (parse : String → Option Json)
    (query : String) (projects : List Project) (u : Usage)
    (h : parse (identify_raw env query projects) = none ∨
         ∃ j, parse (identify_raw env query projects) = some j ∧ j.isArr = false) :
    (identify_relevant_projects env parse query projects u).1 = Except.ok [] := by
  show selectProjects projects (identify_ids parse (identify_raw env query projects))
        = Except.ok []
  have hids : identify_ids parse (identify_raw env query projects) = [] := by
    unfold identify_ids
    rcases h with h | ⟨j, hj, hja⟩
    · rw [h]
    · rw [hj]; cases j <;> simp_all [Json.isArr]
  rw [hids]
  rfl

/-- C4: whenever `identify_relevant_projects` returns a result, every returned
entry is a project of the known roster; consequently every identifier from the
model response that is not the id of a roster project is absent from the
result. -/
theorem identify_drops_unknown_ids (env : LLM) (parse : String → Option Json)
    (query : String) (projects : List Project) (u : Usage) (res : List Project)
    (h : (identify_relevant_projects env parse query projects u).1 = Except.ok res) :
    (∀ b ∈ res, b ∈ projects) ∧
    (∀ s : String, (∀ p ∈ projects, p._id ≠ s) → ∀ b ∈ res, b._id ≠ s) := by
  have hsel : selectProjects projects
      (identify_ids parse (identify_raw env query projects)) = Except.ok res := h
  have hmem := selectProjects_ok_mem hsel
  refine ⟨hmem, ?_⟩
  intro s hs b hb
  exact hs b (hmem b hb)

theorem identify_drops_unknown_ids_witness : projC4 ∈ [projC4] :=
  (identify_drops_unknown_ids envC4 parseC4 "q" [projC4] usage0 [projC4]
      (by decide)).1 projC4 (List.mem_singleton.mpr rfl)

/-- C5 (amended): the result of `identify_relevant_projects` is never longer
than the parsed id list, so whenever the model respects the prompted maximum
of 5 items the returned list has length at most 5.  The code itself enforces
no cap (see the counterexample `identify_no_cap_counterexample`). -/
theorem identify_length_le_ids (env : LLM) (parse : String → Option Json)
    (query : String) (projects : List Project) (u : Usage) (res : List Project)
    (h : (identify_relevant_projects env parse query projects u).1 = Except.ok res)
    (h5 : (identify_ids parse (identify_raw env query projects)).length ≤ 5) :
    res.length ≤ 5 := by
  have hsel : selectProjects projects
      (identify_ids parse (identify_raw env query projects)) = Except.ok res := h
  exact le_trans (selectProjects_ok_length hsel) h5

/-- C5 counterexample: a valid model response that is a JSON array of six
in-roster identifiers makes `identify_relevant_projects` return six entries —
the claimed bound of 5 is not enforced by the code. -/
theorem identify_no_cap_counterexample :
    ¬ exceptLen (identify_relevant_projects envC5 parseC5 "q" [projC5] usage0).1 ≤ 5 := by
  decide

theorem identify_length_le_ids_witness : ([] : List Project).length ≤ 5 :=
  identify_length_le_ids envC5w parseC5w "q" [projC5w] usage0 []
    (by decide) (by decide)

theorem identify_malformed_empty_witness :
    (identify_relevant_projects envC2 parseC2 "q" [] usage0).1 = Except.ok [] :=
  identify_malformed_empty envC2 parseC2 "q" [] usage0 (Or.inl rfl)

/-- C6: on an empty content-block list, `generate_answer` returns exactly the
literal fallback string and leaves the usage counters untouched (so no
completion call is made). -/
theorem generate_answer_empty_blocks (env : LLM) (query : String) (u : Usage) :
    generate_answer env query [] u
      = ("No relevant projects were found for your query.", u) := rfl

/-- C8: the setter list posted by `update_doc` always contains an `updatedAt`
entry: the caller's setters are sent as given when they already set
`updatedAt`, and otherwise exactly one `updatedAt` setter carrying the current
time in milliseconds is appended. -/
theorem update_doc_stamps_updatedAt (now_ms : Nat) (item_id : String)
    (setters : List Setter) :
    ("updatedAt" ∈ setters.map Setter.key →
      (update_doc now_ms item_id setters).setters = setters) ∧
    ("updatedAt" ∉ setters.map Setter.key →
      (update_doc now_ms item_id setters).setters
        = setters ++ [{ key := "updatedAt", val := SVal.num now_ms }]) ∧
    "updatedAt" ∈ (update_doc now_ms item_id setters).setters.map Setter.key := by
  unfold update_doc
  by_cases h : "updatedAt" ∈ setters.map Setter.key
  · simp [h]
  · simp [h]

theorem update_doc_stamps_updatedAt_witness :
    (update_doc 1700000000000 "task1" [setterC8]).setters
      = [setterC8, { key := "updatedAt", val := SVal.num 1700000000000 }] :=
  (update_doc_stamps_updatedAt 1700000000000 "task1" [setterC8]).2.1 (by decide)

/-- C3: `_fetch_one_project` always returns a block for its project (same id);
if the document fetch fails the block's note is the project's already-known
note, stripped; if the children fetch fails the block's task list is empty. -/
theorem fetch_one_project_fallbacks (fenv : FetchEnv) (proj : Project) :
    (fenv.getDoc proj._id = none →
       (_fetch_one_project fenv proj).note = pyStrip (proj.note.getD "")) ∧
    (fenv.getChildren proj._id = none →
       (_fetch_one_project fenv proj).tasks = []) ∧
    (_fetch_one_project fenv proj).id = proj._id := by
  refine ⟨fun h => ?_, fun h => ?_, rfl⟩ <;> simp [_fetch_one_project, h]

theorem fetch_one_project_fallbacks_witness :
    (_fetch_one_project fenvC3 projC3).note = pyStrip (projC3.note.getD "") ∧
    (_fetch_one_project fenvC3 projC3).tasks = [] ∧
    (_fetch_one_project fenvC3 projC3).id = projC3._id :=
  ⟨(fetch_one_project_fallbacks fenvC3 projC3).1 rfl,
   (fetch_one_project_fallbacks fenvC3 projC3).2.1 rfl,
   (fetch_one_project_fallbacks fenvC3 projC3).2.2⟩

/-- C7: `tidy_note` returns the note unchanged and makes no model call (usage
untouched) when the note is blank, or its stripped text is a single markdown
image line (starts with `![`, contains `](`, ends with `)`), or ends with an
image file suffix, or contains "screenshot" (after lowering) in at most 5
words. -/
theorem tidy_note_skips_media (env : LLM) (note context_title : String) (u : Usage)
    (h : note = "" ∨ pyStrip note = "" ∨
      (strStartsWith (pyStrip note) "![" = true ∧
        strContains (pyStrip note) "](" = true ∧
        strEndsWith (pyStrip note) ")" = true) ∨
      strEndsWith (pyStrip note) ".png" = true ∨
      strEndsWith (pyStrip note) ".jpg" = true ∨
      strEndsWith (pyStrip note) ".jpeg" = true ∨
      strEndsWith (pyStrip note) ".gif" = true ∨
      strEndsWith (pyStrip note) ".webp" = true ∨
      (strContains (pyLower (pyStrip note)) "screenshot" = true ∧
        pyWordCount (pyLower (pyStrip note)) ≤ 5)) :
    tidy_note env note context_title u = (note, u) := by
  have hcase : (note == "" || pyStrip note == "") = true
      ∨ tidy_skip (pyStrip note) = true := by
    rcases h with h | h | ⟨h1, h2, h3⟩ | h | h | h | h | h | ⟨h1, h2⟩
    · exact Or.inl (by simp [h])
    · exact Or.inl (by simp [h])
    · exact Or.inr (by unfold tidy_skip; simp [h1, h2, h3])
    · exact Or.inr (by unfold tidy_skip; simp [h])
    · exact Or.inr (by unfold tidy_skip; simp [h])
    · exact Or.inr (by unfold tidy_skip; simp [h])
    · exact Or.inr (by unfold tidy_skip; simp [h])
    · exact Or.inr (by unfold tidy_skip; simp [h])
    · exact Or.inr (by unfold tidy_skip; simp [h1, h2])
  unfold tidy_note
  rcases hcase with hc | hc
  · simp [hc]
  · by_cases h0 : (note == "" || pyStrip note == "") = true
    · simp [h0]
    · simp [h0, hc]

theorem tidy_note_skips_media_witness :
    tidy_note envC7 "![alt](url)" "t" usageC7 = ("![alt](url)", usageC7) ∧
    tidy_note envC7 "photo.png" "t" usageC7 = ("photo.png", usageC7) ∧
    tidy_note envC7 "see screenshot above" "t" usageC7
      = ("see screenshot above", usageC7) :=
  ⟨tidy_note_skips_media envC7 "![alt](url)" "t" usageC7 (by decide),
   tidy_note_skips_media envC7 "photo.png" "t" usageC7 (by decide),
   tidy_note_skips_media envC7 "see screenshot above" "t" usageC7 (by decide)⟩

/-- C9: the project id returned by `assign_project` is either the id of a
roster project or `admin_id` itself; the exact answer `UNSURE`, and any answer
matching no roster id, both yield `admin_id`, so a hallucinated identifier is
never returned. -/
theorem assign_project_roster_or_admin (env : LLM) (task_title : String)
    (projects : List Project) (admin_id : String) (u : Usage) :
    ((assign_project env task_title projects admin_id u).1.1 = admin_id ∨
      ∃ p ∈ projects, p._id = (assign_project env task_title projects admin_id u).1.1) ∧
    (assign_answer env task_title projects = "UNSURE" →
      (assign_project env task_title projects admin_id u).1.1 = admin_id) ∧
    ((∀ p ∈ projects, p._id ≠ assign_answer env task_title projects) →
      (assign_project env task_title projects admin_id u).1.1 = admin_id) := by
  unfold assign_project
  by_cases ha : (assign_answer env task_title projects == "UNSURE") = true
  · simp [ha]
  · simp only [ha, Bool.false_eq_true, if_false]
    cases hm : projects.find? (fun p => p._id == assign_answer env task_title projects) with
    | some matched =>
      have hmem := List.mem_of_find?_eq_some hm
      have hid := List.find?_some hm
      refine ⟨Or.inr ⟨matched, hmem, rfl⟩, fun he => ?_, fun hall => ?_⟩
      · exact absurd (by simp [he]) ha
      · exact absurd (eq_of_beq hid) (hall matched hmem)
    | none =>
      exact ⟨Or.inl rfl, fun _ => rfl, fun _ => rfl⟩

theorem assign_project_roster_or_admin_witness :
    (assign_project envC9 "buy milk" [projC9] "adm" usage0).1.1 = "adm" :=
  (assign_project_roster_or_admin envC9 "buy milk" [projC9] "adm" usage0).2.1
    (by decide)

theorem lastIdx_eq_none {l : List Project} {id : String}
    (h : ∀ q ∈ l, q._id ≠ id) : lastIdx l id = none := by
  induction l with
  | nil => rfl
  | cons p rest ih =>
    unfold lastIdx
    rw [ih (fun q hq => h q (List.mem_cons_of_mem p hq))]
    simp [h p (List.mem_cons_self p rest)]

theorem lastIdx_get {l : List Project}
    (hn : (l.map Project._id).Nodup) :
    ∀ (i : Nat) (hi : i < l.length), lastIdx l (l[i]._id) = some i := by
  induction l with
  | nil => intro i hi; simp at hi
  | cons p rest ih =>
    rw [List.map_cons, List.nodup_cons] at hn
    obtain ⟨hp, hrest⟩ := hn
    intro i hi
    match i with
    | 0 =>
      have hnone : lastIdx rest p._id = none := by
        apply lastIdx_eq_none
        intro q hq hcontra
        exact hp (hcontra ▸ List.mem_map_of_mem Project._id hq)
      show lastIdx (p :: rest) p._id = some 0
      unfold lastIdx
      rw [hnone]
      simp
    | Nat.succ j =>
      have hj : j < rest.length := by
        simpa [List.length_cons, Nat.succ_lt_succ_iff] using hi
      have : (p :: rest)[j + 1] = rest[j] := List.getElem_cons_succ ..
      rw [this]
      unfold lastIdx
      rw [ih hrest j hj]

/-- C1 (amended): provided the relevance list carries pairwise-distinct
project ids, `gather_project_content` returns the content blocks in exactly
the relevance order, for every completion order of the concurrent fetches.
Without the distinctness hypothesis the claim fails (see
`gather_duplicate_counterexample`): the order dict keeps only the last index
of a repeated id. -/
theorem gather_restores_order (fenv : FetchEnv) (projects completed : List Project)
    (hperm : List.Perm completed projects)
    (hnodup : (projects.map Project._id).Nodup) :
    gather_project_content fenv completed projects
      = projects.map (_fetch_one_project fenv) := by
  have hperm2 : List.Perm (gather_project_content fenv completed projects)
      (projects.map (_fetch_one_project fenv)) := by
    unfold gather_project_content
    exact (List.mergeSort_perm _ _).trans (hperm.map _)
  have hkeyE : ∀ (i : Nat) (hi : i < (projects.map (_fetch_one_project fenv)).length),
      gatherKey projects ((projects.map (_fetch_one_project fenv))[i]) = i := by
    intro i hi
    have hi2 : i < projects.length := by simpa using hi
    rw [List.getElem_map]
    show (lastIdx projects (_fetch_one_project fenv projects[i]).id).getD 0 = i
    have hid : (_fetch_one_project fenv projects[i]).id = (projects[i])._id := rfl
    rw [hid, lastIdx_get hnodup i hi2]
    rfl
  have hE_strict : (projects.map (_fetch_one_project fenv)).Pairwise
      (fun a b => gatherKey projects a < gatherKey projects b) := by
    rw [List.pairwise_iff_getElem]
    intro i j hi hj hij
    rw [hkeyE i hi, hkeyE j hj]
    exact hij
  have hM_sorted : (gather_project_content fenv completed projects).Pairwise
      (fun a b => gatherKey projects a ≤ gatherKey projects b) := by
    unfold gather_project_content
    have := @List.sorted_mergeSort ContentBlock
      (fun a b => decide (gatherKey projects a ≤ gatherKey projects b))
      (fun a b c h1 h2 => by
        simp only [decide_eq_true_eq] at *
        omega)
      (fun a b => by
        simp only [Bool.or_eq_true, decide_eq_true_eq]
        omega)
      (completed.map (_fetch_one_project fenv))
    exact this.imp (fun h => of_decide_eq_true h)
  have hkeysE : (projects.map (_fetch_one_project fenv)).map (gatherKey projects)
      = List.range projects.length := by
    apply List.ext_getElem
    · simp
    · intro i h1 h2
      rw [List.getElem_map]
      rw [hkeyE i (by simpa using h1)]
      simp
  have hkeysM_nodup : ((gather_project_content fenv completed projects).map
      (gatherKey projects)).Nodup := by
    refine ((hperm2.map (gatherKey projects)).nodup_iff).mpr ?_
    rw [hkeysE]
    exact List.nodup_range _
  have hM_ne : (gather_project_content fenv completed projects).Pairwise
      (fun a b => gatherKey projects a ≠ gatherKey projects b) :=
    List.pairwise_map.mp hkeysM_nodup
  have hM_strict : (gather_project_content fenv completed projects).Pairwise
      (fun a b => gatherKey projects a < gatherKey projects b) :=
    (hM_sorted.and hM_ne).imp (fun h => lt_of_le_of_ne h.1 h.2)
  haveI : IsAntisymm ContentBlock
      (fun a b => gatherKey projects a < gatherKey projects b) :=
    ⟨fun a b h1 h2 => absurd h1 (Nat.lt_asymm h2)⟩
  exact List.eq_of_perm_of_sorted hperm2 hM_strict hE_strict

theorem gather_restores_order_witness :
    List.Perm [pYw, pXw] [pXw, pYw] ∧
    (([pXw, pYw].map Project._id).Nodup) ∧
    gather_project_content fenvC1w [pYw, pXw] [pXw, pYw]
      = [pXw, pYw].map (_fetch_one_project fenvC1w) :=
  ⟨by decide, by decide,
   gather_restores_order fenvC1w [pXw, pYw] [pYw, pXw] (by decide) (by decide)⟩

/-- C1 counterexample: with the relevance list `[a, b, a]` (a duplicated
in-roster id, which the selector can produce — see C10) the gathered output is
`[b, a, a]` even when the fetches complete in submission order, so the output
does not always equal the relevance order. -/
theorem gather_duplicate_counterexample :
    gather_project_content fenvC1 [pC1a, pC1b, pC1a] [pC1a, pC1b, pC1a]
      ≠ [pC1a, pC1b, pC1a].map (_fetch_one_project fenvC1) := by
  simp +decide [gather_project_content, List.mergeSort, List.merge, gatherKey,
    lastIdx, _fetch_one_project, pC1a, pC1b, fenvC1]

/-- C10: a valid model output repeating an in-roster identifier makes
`identify_relevant_projects` return the corresponding project twice (no
deduplication), and `gather_project_content` then yields one content block per
occurrence. -/
theorem identify_duplicates_propagate :
    (identify_relevant_projects envC10 parseC10 "q" [projC10] usage0).1
        = Except.ok [projC10, projC10] ∧
    gather_project_content fenvC10 [projC10, projC10] [projC10, projC10]
        = [blockC10, blockC10] := by
  constructor
  · decide
  · simp +decide [gather_project_content, List.mergeSort, List.merge, gatherKey,
      lastIdx, _fetch_one_project, projC10, fenvC10, blockC10, pyStrip]

end Marvin
